import Mathlib

/-!
# Verification of the honeybee-3dm geometry and layer pipeline

Shallow embedding of the honeybee-3dm conversion pipeline
(`honeybee_3dm/togeometry.py`, `layer.py`, `helper.py`, `grid.py`, `room.py`,
`face.py`) in Lean 4, together with theorems settling the frozen claims about
the natural-language specification.

Modelling conventions:
* Coordinates are integers (`ℤ`), read as multiples of a fixed grid unit, and
  the model tolerance is a natural number of grid units.  The Python floats
  are IEEE doubles, but every claim below concerns control flow, exact
  equality and tolerance comparisons, all of which are invariant under this
  scaling.
* Calls into the external `ladybug_geometry` library
  (`Polyline3D.join_segments`, `Face3D(...).area`, `Point3D.is_equivalent`)
  are represented either by a function parameter (`join`, `area`) or by a
  direct translation of the library's documented behaviour (`is_equivalent`
  compares coordinates component-wise against the tolerance).
* Python list indexing with a negative index (`vertices[i - 1]` at `i = 0`
  reads the last element) is translated explicitly.
-/

namespace Honeybee3dm

/-- A 3D point with integer grid coordinates, modelling `ladybug_geometry`'s
`Point3D` as used by `togeometry.py`. -/
structure Point3D where
  x : ℤ
  y : ℤ
  z : ℤ
deriving DecidableEq, Repr, Inhabited

/-- `Point3D.is_equivalent(self, point, tolerance)` from the external
`ladybug_geometry` library: component-wise comparison of the absolute
coordinate differences against the tolerance (`natAbs` is the absolute
value of the integer difference). -/
def is_equivalent (p q : Point3D) (tolerance : ℕ) : Bool :=
  decide ((p.x - q.x).natAbs ≤ tolerance) && decide ((p.y - q.y).natAbs ≤ tolerance) &&
    decide ((p.z - q.z).natAbs ≤ tolerance)

/-- `togeometry.remove_dup_vertices(vertices, tolerance)`: the list
comprehension `[pt for i, pt in enumerate(vertices) if not
pt.is_equivalent(vertices[i - 1], tolerance)]`.  At `i = 0` the Python index
`i - 1 = -1` reads the *last* element of the list. -/
def remove_dup_vertices (vertices : List Point3D) (tolerance : ℕ) : List Point3D :=
  ((List.range vertices.length).filter fun i =>
    ! is_equivalent (vertices.getD i default)
        (vertices.getD (if i = 0 then vertices.length - 1 else i - 1) default)
        tolerance).map
    (fun i => vertices.getD i default)

/-- C9 (main part): the kept indices are exactly those whose point is not
tolerance-equivalent to its cyclic predecessor, written with the cyclic index
`(i + n - 1) % n`. -/
theorem remove_dup_vertices_cyclic (vertices : List Point3D) (tolerance : ℕ) :
    remove_dup_vertices vertices tolerance =
      ((List.range vertices.length).filter fun i =>
        ! is_equivalent (vertices.getD i default)
            (vertices.getD ((i + vertices.length - 1) % vertices.length) default)
            tolerance).map
        (fun i => vertices.getD i default) := by
  unfold remove_dup_vertices
  congr 1
  apply List.filter_congr
  intro i hi
  rw [List.mem_range] at hi
  have hidx : (if i = 0 then vertices.length - 1 else i - 1) =
      (i + vertices.length - 1) % vertices.length := by
    rcases i with _ | k
    · simp only [if_pos rfl, Nat.zero_add]
      exact (Nat.mod_eq_of_lt (Nat.sub_lt (Nat.pos_of_ne_zero (by omega)) one_pos)).symm
    · have h1 : k + 1 + vertices.length - 1 = k + vertices.length := by omega
      have h2 : (k + vertices.length) % vertices.length = k % vertices.length :=
        Nat.add_mod_right k vertices.length
      have h3 : k % vertices.length = k := Nat.mod_eq_of_lt (by omega)
      simp only [if_neg (Nat.succ_ne_zero k), Nat.succ_sub_one, h1, h2, h3]
  rw [hidx]

/-- `getD` at index `length - 1` reads the last element. -/
theorem getD_length_sub_one {α : Type} (l : List α) (d : α) :
    l.getD (l.length - 1) d = l.getLastD d := by
  rw [List.getD_eq_getElem?_getD, List.getLastD_eq_getLast?, List.getLast?_eq_getElem?]

/-- `getD` at index `0` reads the head. -/
theorem getD_zero {α : Type} (l : List α) (d : α) : l.getD 0 d = l.headD d := by
  rw [List.getD_eq_getElem?_getD, List.headD_eq_head?, List.head?_eq_getElem?]

/-- C9 (closed-list part): when the first point is tolerance-equivalent to the
last point, index `0` is filtered out, so only indices `1, …, n-1` (each
compared with its ordinary predecessor `i - 1`) can contribute. -/
theorem remove_dup_vertices_closed_drops_first (vertices : List Point3D)
    (tolerance : ℕ) (hne : vertices ≠ [])
    (heq : is_equivalent (vertices.headD default) (vertices.getLastD default)
      tolerance = true) :
    remove_dup_vertices vertices tolerance =
      ((List.range' 1 (vertices.length - 1)).filter fun i =>
        ! is_equivalent (vertices.getD i default) (vertices.getD (i - 1) default)
            tolerance).map
        (fun i => vertices.getD i default) := by
  obtain ⟨v, vs, rfl⟩ := List.exists_cons_of_ne_nil hne
  unfold remove_dup_vertices
  rw [List.range_eq_range']
  have hlen : (v :: vs).length = vs.length + 1 := rfl
  rw [hlen, List.range'_succ]
  rw [List.filter_cons]
  have h0 : (! is_equivalent ((v :: vs).getD 0 default)
      ((v :: vs).getD (if 0 = 0 then vs.length + 1 - 1 else 0 - 1) default)
      tolerance) = false := by
    have hrw : vs.length + 1 - 1 = (v :: vs).length - 1 := rfl
    rw [if_pos rfl, hrw, getD_length_sub_one, getD_zero, heq]
    rfl
  rw [h0]
  simp only [Bool.false_eq_true, if_false, Nat.add_sub_cancel]
  congr 1
  apply List.filter_congr
  intro i hi
  rw [List.mem_range'_1] at hi
  rw [if_neg (by omega : ¬ i = 0)]

/-- C9: for every list of points, `remove_dup_vertices` keeps exactly those
points that are not tolerance-equivalent to their predecessor, where the
predecessor of the first point is the last point of the list (Python's
`vertices[i - 1]` at `i = 0`); consequently, whenever the first point
coincides with the last point within tolerance — the duplicated closing
vertex of a closed polyline, or the first point of an open list that happens
to coincide with the final point — the first point is dropped and every other
point is compared with its ordinary predecessor `i - 1`. -/
theorem claim_c9_remove_dup_vertices (vertices : List Point3D) (tolerance : ℕ) :
    remove_dup_vertices vertices tolerance =
      ((List.range vertices.length).filter fun i =>
        ! is_equivalent (vertices.getD i default)
            (vertices.getD ((i + vertices.length - 1) % vertices.length) default)
            tolerance).map
        (fun i => vertices.getD i default) ∧
    (vertices ≠ [] →
      is_equivalent (vertices.headD default) (vertices.getLastD default)
        tolerance = true →
      remove_dup_vertices vertices tolerance =
        ((List.range' 1 (vertices.length - 1)).filter fun i =>
          ! is_equivalent (vertices.getD i default)
              (vertices.getD (i - 1) default) tolerance).map
          (fun i => vertices.getD i default)) :=
  ⟨remove_dup_vertices_cyclic vertices tolerance,
   fun hne heq => remove_dup_vertices_closed_drops_first vertices tolerance hne heq⟩

/-- A closed square polyline, as `Polyline3D.vertices` exposes it: the first
vertex is repeated at the end.  Concrete inputs in this file use integer
coordinates with tolerance `1`, i.e. lengths counted in units of the model
tolerance. -/
def c9SquareLoop : List Point3D :=
  [⟨0, 0, 0⟩, ⟨1000, 0, 0⟩, ⟨1000, 1000, 0⟩, ⟨0, 1000, 0⟩, ⟨0, 0, 0⟩]

/-- Witness for C9 at a concrete closed square loop. -/
theorem claim_c9_remove_dup_vertices_witness :
    (c9SquareLoop ≠ [] ∧
      is_equivalent (c9SquareLoop.headD default) (c9SquareLoop.getLastD default)
        1 = true) ∧
    remove_dup_vertices c9SquareLoop 1 =
      ((List.range' 1 (c9SquareLoop.length - 1)).filter fun i =>
        ! is_equivalent (c9SquareLoop.getD i default)
            (c9SquareLoop.getD (i - 1) default) 1).map
        (fun i => c9SquareLoop.getD i default) :=
  ⟨⟨by decide, by decide⟩,
   (claim_c9_remove_dup_vertices c9SquareLoop 1).2 (by decide) (by decide)⟩

/-! ## Meshes and `mesh_to_face3d` (togeometry.py) -/

/-- A face of a rhino3dm mesh: `mesh.Faces[j]` is a tuple of four vertex
indices for a quad and three for a triangle (`len(face)` is 4 or 3). -/
inductive MeshFace
  | tri (a b c : ℕ)
  | quad (a b c d : ℕ)
deriving DecidableEq, Repr

/-- The tuple of vertex indices of a mesh face, in winding order. -/
def MeshFace.indices : MeshFace → List ℕ
  | .tri a b c => [a, b, c]
  | .quad a b c d => [a, b, c, d]

/-- `len(face) == 4`. -/
def MeshFace.is_quad : MeshFace → Bool
  | .tri _ _ _ => false
  | .quad _ _ _ _ => true

/-- A rhino3dm mesh: a vertex array and a face list. -/
structure Mesh where
  vertices : List Point3D
  faces : List MeshFace
deriving DecidableEq, Repr

/-- A Ladybug `Face3D`: an outer boundary loop plus hole loops. -/
structure Face3D where
  boundary : List Point3D
  holes : List (List Point3D)
deriving DecidableEq, Repr, Inhabited

/-- `togeometry.mesh_to_face3d(mesh)`: for each mesh face (`for j in
range(len(mesh.Faces))`), emit one `Face3D` whose vertices are the mesh's
vertex array entries at the face's indices — four of them when
`len(face) == 4`, otherwise three. -/
def mesh_to_face3d (mesh : Mesh) : List Face3D :=
  let pts := mesh.vertices
  (List.range mesh.faces.length).map fun j =>
    match mesh.faces.getD j (.tri 0 0 0) with
    | .quad a b c d =>
        { boundary := [pts.getD a default, pts.getD b default,
            pts.getD c default, pts.getD d default], holes := [] }
    | .tri a b c =>
        { boundary := [pts.getD a default, pts.getD b default,
            pts.getD c default], holes := [] }

/-- C2: `mesh_to_face3d` returns exactly one `Face3D` per mesh face, in face
iteration order; the `j`-th output's boundary is the mesh's vertex array read
at the `j`-th face's indices, so it has 4 vertices for a quad face and 3 for
a triangle face, and carries no holes. -/
theorem claim_c2_mesh_to_face3d (mesh : Mesh) (j : ℕ) (hj : j < mesh.faces.length) :
    (mesh_to_face3d mesh).length = mesh.faces.length ∧
    ((mesh_to_face3d mesh).getD j default).boundary =
      (mesh.faces.getD j (.tri 0 0 0)).indices.map
        (fun i => mesh.vertices.getD i default) ∧
    ((mesh_to_face3d mesh).getD j default).holes = [] ∧
    ((mesh.faces.getD j (.tri 0 0 0)).is_quad = true →
      ((mesh_to_face3d mesh).getD j default).boundary.length = 4) ∧
    ((mesh.faces.getD j (.tri 0 0 0)).is_quad = false →
      ((mesh_to_face3d mesh).getD j default).boundary.length = 3) := by
  have hlen : (mesh_to_face3d mesh).length = mesh.faces.length := by
    unfold mesh_to_face3d
    rw [List.length_map, List.length_range]
  have hget : (mesh_to_face3d mesh).getD j default =
      (match mesh.faces.getD j (.tri 0 0 0) with
      | .quad a b c d =>
          { boundary := [mesh.vertices.getD a default, mesh.vertices.getD b default,
              mesh.vertices.getD c default, mesh.vertices.getD d default],
            holes := [] }
      | .tri a b c =>
          { boundary := [mesh.vertices.getD a default, mesh.vertices.getD b default,
              mesh.vertices.getD c default], holes := [] } : Face3D) := by
    unfold mesh_to_face3d
    rw [List.getD_eq_getElem?_getD, List.getElem?_map, List.getElem?_range hj]
    rfl
  refine ⟨hlen, ?_, ?_, ?_, ?_⟩ <;>
    rw [hget] <;>
    rcases hface : mesh.faces.getD j (.tri 0 0 0) with ⟨a, b, c⟩ | ⟨a, b, c, d⟩ <;>
      simp [MeshFace.indices, MeshFace.is_quad]

/-- A concrete two-face mesh: one quad and one triangle over five vertices. -/
def c2Mesh : Mesh :=
  { vertices := [⟨0, 0, 0⟩, ⟨1000, 0, 0⟩, ⟨1000, 1000, 0⟩, ⟨0, 1000, 0⟩,
      ⟨2000, 500, 0⟩],
    faces := [.quad 0 1 2 3, .tri 1 4 2] }

/-- Witness for C2 at a concrete mesh and face index. -/
theorem claim_c2_mesh_to_face3d_witness :
    0 < c2Mesh.faces.length ∧
    (mesh_to_face3d c2Mesh).length = c2Mesh.faces.length ∧
    ((mesh_to_face3d c2Mesh).getD 0 default).boundary =
      (c2Mesh.faces.getD 0 (.tri 0 0 0)).indices.map
        (fun i => c2Mesh.vertices.getD i default) :=
  ⟨by decide, (claim_c2_mesh_to_face3d c2Mesh 0 (by decide)).1,
   (claim_c2_mesh_to_face3d c2Mesh 0 (by decide)).2.1⟩

/-! ## Grid controls (helper.py `check_grid_controls`, grid.py `import_grids`) -/

/-- A JSON-derived config value, with the Python type distinctions that
`isinstance(item, float)` can observe. -/
inductive ConfigValue
  | float (q : ℚ)
  | int (n : ℤ)
  | str (s : String)
deriving DecidableEq, Repr

/-- `isinstance(item, float)`. -/
def ConfigValue.is_float : ConfigValue → Bool
  | .float _ => true
  | _ => false

/-- `helper.check_grid_controls(grid_controls)`: builds
`check = [isinstance(item, float) for item in grid_controls]` and returns
`True` iff `len(grid_controls) == len(check)`. -/
def check_grid_controls (grid_controls : List ConfigValue) : Bool :=
  let check := grid_controls.map (fun item => item.is_float)
  if grid_controls.length = check.length then true else false

/-- The fallback `grid_controls = [1.0, 1.0, 0.0]` from grid.py. -/
def default_grid_controls : List ConfigValue := [.float 1, .float 1, .float 0]

/-- grid.py lines 44-54: `grid_controls = grid_settings` when
`check_grid_controls(grid_settings)` passes, otherwise (after a warning) the
default `[1.0, 1.0, 0.0]`. -/
def select_grid_controls (grid_settings : List ConfigValue) : List ConfigValue :=
  if check_grid_controls grid_settings then grid_settings else default_grid_controls

/-- C10: `check_grid_controls` returns `True` on every input list — it
compares the list's length with the length of a `map` over the same list —
so `import_grids` never rejects non-float grid settings and the fallback
branch substituting `[1.0, 1.0, 0.0]` is unreachable. -/
theorem claim_c10_check_grid_controls (grid_controls : List ConfigValue) :
    check_grid_controls grid_controls = true ∧
    select_grid_controls grid_controls = grid_controls := by
  have hcheck : check_grid_controls grid_controls = true := by
    unfold check_grid_controls
    simp [List.length_map]
  exact ⟨hcheck, by unfold select_grid_controls; rw [hcheck]; rfl⟩

/-! ## Layers (layer.py and helper.py)

`layer.py` and `helper.py` contain two near-identical copies of the layer
resolution functions; both are embedded.  A Rhino layer's `FullPath` is the
`::`-separated chain of ancestor names ending in the layer's own name; the
code only ever consumes `FullPath.split('::')`, so the path is modelled
directly as the list of its components. -/

/-- A rhino3dm layer: name, split hierarchical path (root to leaf, ending in
`name`), table index, and own visibility flag. -/
structure RhinoLayer where
  name : String
  fullPath : List String
  index : ℕ
  visible : Bool
deriving DecidableEq, Repr

/-- A rhino3dm object: its layer reference (`Attributes.LayerIndex`) and its
own visibility flag (`Attributes.Visible`). -/
structure RhinoObject where
  layerIndex : ℕ
  visible : Bool
deriving DecidableEq, Repr

/-- A rhino3dm file: the layer table and the object table. -/
structure File3dm where
  layers : List RhinoLayer
  objects : List RhinoObject
deriving DecidableEq, Repr

namespace LayerPy

/-- `layer.parent_child_layers(file_3dm, layer_name, layer_visibility)`:
collect the path components of every (visible, when filtering) layer whose
path contains `layer_name`, then deduplicate (`list(set(...))`; only
membership in the result is ever consumed downstream, so the set's
iteration order is modelled by first-occurrence order). -/
def parent_child_layers (file_3dm : File3dm) (layer_name : String)
    (layer_visibility : Bool) : List String :=
  (file_3dm.layers.foldl (fun layer_names layer =>
    if layer_visibility then
      if layer.visible then
        let parent_children := layer.fullPath
        if layer_name ∈ parent_children then layer_names ++ parent_children
        else layer_names
      else layer_names
    else
      let parent_children := layer.fullPath
      if layer_name ∈ parent_children then layer_names ++ parent_children
      else layer_names) []).dedup

/-- `layer.filter_objects_by_layer_index(file_3dm, layer_index)`: the double
comprehension over objects and indices, keeping an object when its layer
index matches and the object itself is visible. -/
def filter_objects_by_layer_index (file_3dm : File3dm) (layer_index : List ℕ) :
    List RhinoObject :=
  file_3dm.objects.flatMap fun obj =>
    layer_index.filterMap fun index =>
      if obj.layerIndex = index ∧ obj.visible = true then some obj else none

/-- `layer.objects_on_parent_child(file_3dm, layer_name, layer_visibility)`:
resolve the parent/child closure; an empty closure returns `[]`, a non-empty
closure with no matching (visible) layer name raises `ValueError`. -/
def objects_on_parent_child (file_3dm : File3dm) (layer_name : String)
    (layer_visibility : Bool) : Except String (List RhinoObject) :=
  let parent_child := parent_child_layers file_3dm layer_name layer_visibility
  if parent_child.isEmpty = false then
    let layer_index :=
      if layer_visibility then
        (file_3dm.layers.filter fun layer =>
          decide (layer.name ∈ parent_child) && layer.visible).map (fun l => l.index)
      else
        (file_3dm.layers.filter fun layer =>
          decide (layer.name ∈ parent_child)).map (fun l => l.index)
    if layer_index.isEmpty then
      Except.error ("Find no layer named " ++ layer_name)
    else
      Except.ok (filter_objects_by_layer_index file_3dm layer_index)
  else Except.ok []

/-- `layer.objects_on_layer(file_3dm, layer, layer_visibility)`: only the
layer's own `Visible` flag is consulted. -/
def objects_on_layer (file_3dm : File3dm) (layer : RhinoLayer)
    (layer_visibility : Bool) : List RhinoObject :=
  if layer_visibility then
    if layer.visible then filter_objects_by_layer_index file_3dm [layer.index]
    else []
  else filter_objects_by_layer_index file_3dm [layer.index]

end LayerPy

namespace HelperPy

/-- `helper.parent_child_layers(file_3dm, layer_name, visibility)`: identical
to the layer.py copy. -/
def parent_child_layers (file_3dm : File3dm) (layer_name : String)
    (visibility : Bool) : List String :=
  (file_3dm.layers.foldl (fun layer_names layer =>
    if visibility then
      if layer.visible then
        let parent_children := layer.fullPath
        if layer_name ∈ parent_children then layer_names ++ parent_children
        else layer_names
      else layer_names
    else
      let parent_children := layer.fullPath
      if layer_name ∈ parent_children then layer_names ++ parent_children
      else layer_names) []).dedup

/-- `helper.filter_objects_by_layer_index(file_3dm, layer_index)`: unlike the
layer.py copy, the object's own visibility is not consulted. -/
def filter_objects_by_layer_index (file_3dm : File3dm) (layer_index : List ℕ) :
    List RhinoObject :=
  file_3dm.objects.flatMap fun obj =>
    layer_index.filterMap fun index =>
      if obj.layerIndex = index then some obj else none

/-- `helper.objects_on_parent_child(file_3dm, layer_name, visibility)`. -/
def objects_on_parent_child (file_3dm : File3dm) (layer_name : String)
    (visibility : Bool) : Except String (List RhinoObject) :=
  let parent_child := parent_child_layers file_3dm layer_name visibility
  if parent_child.isEmpty = false then
    let layer_index :=
      if visibility then
        (file_3dm.layers.filter fun layer =>
          decide (layer.name ∈ parent_child) && layer.visible).map (fun l => l.index)
      else
        (file_3dm.layers.filter fun layer =>
          decide (layer.name ∈ parent_child)).map (fun l => l.index)
    if layer_index.isEmpty then
      Except.error ("Find no layer named " ++ layer_name)
    else
      Except.ok (filter_objects_by_layer_index file_3dm layer_index)
  else Except.ok []

end HelperPy

/-- The two copies of `parent_child_layers` are the same function. -/
theorem helper_parent_child_layers_eq :
    HelperPy.parent_child_layers = LayerPy.parent_child_layers := rfl

/-- A fold that never appends anything returns its accumulator: used for
layer names contained in no layer's path. -/
theorem parent_child_fold_nil (layers : List RhinoLayer) (layer_name : String)
    (vis : Bool) (acc : List String)
    (h : ∀ layer ∈ layers, layer_name ∉ layer.fullPath) :
    layers.foldl (fun layer_names layer =>
      if vis then
        if layer.visible then
          let parent_children := layer.fullPath
          if layer_name ∈ parent_children then layer_names ++ parent_children
          else layer_names
        else layer_names
      else
        let parent_children := layer.fullPath
        if layer_name ∈ parent_children then layer_names ++ parent_children
        else layer_names) acc = acc := by
  induction layers generalizing acc with
  | nil => rfl
  | cons layer rest ih =>
    have hmem : layer_name ∉ layer.fullPath := h layer (by simp)
    have hstep : (if vis then
        if layer.visible then
          if layer_name ∈ layer.fullPath then acc ++ layer.fullPath else acc
        else acc
      else
        if layer_name ∈ layer.fullPath then acc ++ layer.fullPath else acc) = acc := by
      rcases vis <;> rcases hv : layer.visible <;> simp [hmem]
    rw [List.foldl_cons]
    simp only [hstep]
    exact ih acc (fun l hl => h l (by simp [hl]))

/-- When no layer's path contains the queried name, `parent_child_layers`
returns the empty list. -/
theorem parent_child_layers_eq_nil (file_3dm : File3dm) (layer_name : String)
    (vis : Bool) (h : ∀ layer ∈ file_3dm.layers, layer_name ∉ layer.fullPath) :
    LayerPy.parent_child_layers file_3dm layer_name vis = [] := by
  unfold LayerPy.parent_child_layers
  rw [parent_child_fold_nil file_3dm.layers layer_name vis [] h]
  rfl

/-- C3 (amended): when the queried layer name appears in no layer's path,
both copies of `objects_on_parent_child` return the empty object list
(`return []`); no error is raised.  The `ValueError` branch fires only when
the path closure is non-empty yet no (visible) layer carries a matching
name. -/
theorem claim_c3_layer_not_found_returns_empty (file_3dm : File3dm)
    (layer_name : String) (vis : Bool)
    (h : ∀ layer ∈ file_3dm.layers, layer_name ∉ layer.fullPath) :
    LayerPy.objects_on_parent_child file_3dm layer_name vis = Except.ok [] ∧
    HelperPy.objects_on_parent_child file_3dm layer_name vis = Except.ok [] := by
  have hnil := parent_child_layers_eq_nil file_3dm layer_name vis h
  constructor
  · unfold LayerPy.objects_on_parent_child
    rw [hnil]
    rfl
  · unfold HelperPy.objects_on_parent_child
    rw [helper_parent_child_layers_eq, hnil]
    rfl

/-- A one-layer scene used for the C3 statements: a single visible layer
named `A` carrying one object. -/
def c3File : File3dm :=
  { layers := [{ name := "A", fullPath := ["A"], index := 0, visible := true }],
    objects := [{ layerIndex := 0, visible := true }] }

/-- Witness for C3 (amended) at a concrete scene and unmatched name. -/
theorem claim_c3_layer_not_found_returns_empty_witness :
    (∀ layer ∈ c3File.layers, "B" ∉ layer.fullPath) ∧
    LayerPy.objects_on_parent_child c3File "B" true = Except.ok [] ∧
    HelperPy.objects_on_parent_child c3File "B" true = Except.ok [] :=
  ⟨by decide,
   (claim_c3_layer_not_found_returns_empty c3File "B" true (by decide)).1,
   (claim_c3_layer_not_found_returns_empty c3File "B" true (by decide)).2⟩

/-- C3 counterexample: for a scene whose only layer is named `A`, resolving
the unmatched name `B` returns `Except.ok []` — a result, not the
"layer not found" error the claim requires. -/
theorem claim_c3_counterexample :
    LayerPy.objects_on_parent_child c3File "B" true = Except.ok [] ∧
    HelperPy.objects_on_parent_child c3File "B" true = Except.ok [] := by
  constructor <;> rfl

/-- C4 (amended): with the visibility filter active, `objects_on_layer`
consults only the queried layer's own `Visible` flag — the result never
depends on the layer table (hence not on any ancestor's visibility): an
invisible layer yields `[]`, while a visible layer yields the objects with
its index even if its parent layer is invisible. -/
theorem claim_c4_objects_on_layer_own_flag_only (file_3dm other : File3dm)
    (layer : RhinoLayer) (hobj : file_3dm.objects = other.objects) :
    LayerPy.objects_on_layer file_3dm layer true =
      LayerPy.objects_on_layer other layer true ∧
    (layer.visible = false → LayerPy.objects_on_layer file_3dm layer true = []) ∧
    (layer.visible = true → LayerPy.objects_on_layer file_3dm layer true =
      LayerPy.filter_objects_by_layer_index file_3dm [layer.index]) := by
  have hfilter : LayerPy.filter_objects_by_layer_index file_3dm [layer.index] =
      LayerPy.filter_objects_by_layer_index other [layer.index] := by
    unfold LayerPy.filter_objects_by_layer_index
    rw [hobj]
  refine ⟨?_, ?_, ?_⟩
  · unfold LayerPy.objects_on_layer
    rcases hv : layer.visible <;> simp [hv, hfilter]
  · intro hv
    unfold LayerPy.objects_on_layer
    simp [hv]
  · intro hv
    unfold LayerPy.objects_on_layer
    simp [hv]

/-- The C4 counterexample scene: an invisible parent layer `P` with a visible
child layer `C` (`FullPath = P::C`) carrying one visible object. -/
def c4File : File3dm :=
  { layers := [{ name := "P", fullPath := ["P"], index := 0, visible := false },
      { name := "C", fullPath := ["P", "C"], index := 1, visible := true }],
    objects := [{ layerIndex := 1, visible := true }] }

/-- The child layer of the C4 counterexample scene. -/
def c4Child : RhinoLayer :=
  { name := "C", fullPath := ["P", "C"], index := 1, visible := true }

/-- C4 counterexample: the child layer is visible but its parent layer is
invisible, and `objects_on_layer` (visibility filter active) still returns
the child's object — contradicting the claim that no object on such a layer
is returned. -/
theorem claim_c4_counterexample :
    ((c4File.layers.getD 0 c4Child).visible = false ∧
      c4Child ∈ c4File.layers ∧ c4Child.visible = true) ∧
    LayerPy.objects_on_layer c4File c4Child true =
      [{ layerIndex := 1, visible := true }] := by
  constructor
  · exact ⟨rfl, by decide, rfl⟩
  · rfl

/-- Witness for C4 (amended) at the concrete two-layer scene. -/
theorem claim_c4_objects_on_layer_own_flag_only_witness :
    c4File.objects = c4File.objects ∧ c4Child.visible = true ∧
    LayerPy.objects_on_layer c4File c4Child true =
      LayerPy.filter_objects_by_layer_index c4File [c4Child.index] :=
  ⟨rfl, rfl,
   (claim_c4_objects_on_layer_own_flag_only c4File c4File c4Child rfl).2.2 rfl⟩

/-! ## Identifier generation (room.py `to_room`, face.py `import_faces`)

`room.py` names a volume `geo.Attributes.Name` when the user assigned one and
otherwise `"Room" + str(uuid.uuid4())[:8]`; `face.py` uses
`name or clean_and_id_string(layer.Name)`, where honeybee's
`clean_and_id_string` appends `_` plus the first eight characters of a random
UUID.  A "run" of the conversion is modelled by passing the stream of UUID
strings that `uuid.uuid4()` produces during that run. -/

/-- room.py lines 66-74: derive one name per volume, consuming one fresh UUID
string per unnamed volume (`uuid4 count` is the UUID drawn at loop index
`count`). -/
def room_names (volume_names : List String) (uuid4 : ℕ → String) : List String :=
  (List.range volume_names.length).map fun count =>
    let name := volume_names.getD count ""
    if 0 < name.length then name
    else "Room" ++ (uuid4 count).take 8

/-- honeybee's `clean_and_id_string(text)` (external): the cleaned text plus
`_` plus the first eight characters of a fresh UUID.  Cleaning is the
identity on the already-clean layer names considered here. -/
def clean_and_id_string (text : String) (uuid4 : String) : String :=
  text ++ "_" ++ uuid4.take 8

/-- face.py lines 100-103: `obj_name = name or clean_and_id_string(layer.Name)`
(the empty string is falsy in Python). -/
def face_obj_name (name : String) (layer_name : String) (uuid4 : String) :
    String :=
  if 0 < name.length then name else clean_and_id_string layer_name uuid4

/-- C5 (amended): the synthesized identifiers are reproducible across two
runs exactly on the objects that carry a user-assigned (non-empty) name; when
every volume is named, `to_room`'s name list is independent of the UUID
stream, and a named object's face identifier is independent of the UUID
draw.  Unnamed objects consume a fresh random UUID, so their identifiers are
not stable across runs (see the counterexample). -/
theorem claim_c5_names_deterministic_iff_user_named (volume_names : List String)
    (u1 u2 : ℕ → String) (name layer_name : String) (v1 v2 : String)
    (hall : ∀ i, i < volume_names.length → 0 < (volume_names.getD i "").length)
    (hname : 0 < name.length) :
    room_names volume_names u1 = room_names volume_names u2 ∧
    face_obj_name name layer_name v1 = face_obj_name name layer_name v2 := by
  constructor
  · unfold room_names
    apply List.map_congr_left
    intro i hi
    rw [List.mem_range] at hi
    simp only [if_pos (hall i hi)]
  · unfold face_obj_name
    rw [if_pos hname, if_pos hname]

/-- Witness for C5 (amended) at a concrete named scene and two distinct UUID
streams. -/
theorem claim_c5_names_deterministic_iff_user_named_witness :
    ((∀ i, i < ["kitchen"].length → 0 < (["kitchen"].getD i "").length) ∧
      0 < "southwall".length) ∧
    (room_names ["kitchen"] (fun _ => "aaaaaaaa-bbbb") =
      room_names ["kitchen"] (fun _ => "cccccccc-dddd") ∧
    face_obj_name "southwall" "HB_wall" "aaaaaaaa-bbbb" =
      face_obj_name "southwall" "HB_wall" "cccccccc-dddd") :=
  ⟨⟨by decide, by decide⟩,
   claim_c5_names_deterministic_iff_user_named ["kitchen"]
     (fun _ => "aaaaaaaa-bbbb") (fun _ => "cccccccc-dddd") "southwall" "HB_wall"
     "aaaaaaaa-bbbb" "cccccccc-dddd" (by decide) (by decide)⟩

/-- C5 counterexample: one unnamed volume.  Two runs drawing different UUIDs
produce different room identifiers, so re-running the conversion on the same
scene does not reproduce the Model content. -/
theorem claim_c5_counterexample :
    room_names [""] (fun _ => "aaaaaaaa-bbbb") ≠
      room_names [""] (fun _ => "cccccccc-dddd") := by decide

/-! ## Breps (togeometry.py) -/

/-- A brep surface, exposing the result of the external
`Surfaces[i].IsPlanar(tolerance)` query as a function of the tolerance. -/
structure BrepSurface where
  isPlanarAt : ℕ → Bool

instance : Inhabited BrepSurface := ⟨⟨fun _ => true⟩⟩

/-- A brep edge: the result of the external `Edges[i].IsLinear(tolerance)`
query at the model tolerance, and the edge's start and end points. -/
structure BrepEdge where
  isLinear : Bool
  pointAtStart : Point3D
  pointAtEnd : Point3D

/-- A rhino3dm Brep as consumed by `brep_to_face3d` and `check_planarity`:
`meshVertexCount` is `len(mesh.Vertices)` of `Faces[0].GetMesh(Any)`, or
`none` when `GetMesh` returns no mesh (`if not mesh: raise AttributeError`). -/
structure Brep where
  meshVertexCount : Option ℕ
  edges : List BrepEdge
  surfaces : List BrepSurface

/-- `togeometry.check_planarity(brep, tolerance)`: all surfaces are planar at
the tolerance. -/
def check_planarity (brep : Brep) (tolerance : ℕ) : Bool :=
  ((List.range brep.surfaces.length).map fun i =>
    (brep.surfaces.getD i default).isPlanarAt tolerance).all id

/-! ## Grid generation (grid.py `import_grids`) -/

/-- Python exception kinds observed by the embedded fragments. -/
inductive PyError
  | typeError
  | attributeError
  | valueError
deriving DecidableEq, Repr

/-- An argument value in a Python call to `check_planarity`. -/
inductive PyValue
  | brep (b : Brep)
  | num (tolerance : ℕ)

/-- A Python call of `togeometry.check_planarity`: the function's signature is
`check_planarity(brep, tolerance)` with no defaults, so a call that does not
supply exactly a brep and a tolerance raises `TypeError` before the body
runs. -/
def check_planarity_call (args : List PyValue) : Except PyError Bool :=
  match args with
  | [PyValue.brep b, PyValue.num tolerance] => Except.ok (check_planarity b tolerance)
  | _ => Except.error PyError.typeError

/-- The outcome of grid.py's per-object Brep branch (lines 62-79). -/
inductive GridBrepOutcome
  | raisedTypeError
  | skippedNonPlanarWithWarning
  | skippedShadedModeWarning
  | gridded
deriving DecidableEq, Repr

/-- grid.py lines 62-79 for a Brep grid object: the code calls
`check_planarity(geo)` with a single argument (grid.py line 64), although
`togeometry.check_planarity` requires `(brep, tolerance)`.  The call sits in
the `if` condition, outside the `try` block (which only guards the
`brep_to_face3d(...).mesh_grid(...)` line and only catches
`AttributeError`), so the resulting `TypeError` escapes `import_grids`.
`mesh_grid_ok` stands for whether the subsequent gridding line would
succeed. -/
def import_grids_brep_step (geo : Brep) (mesh_grid_ok : Bool) : GridBrepOutcome :=
  match check_planarity_call [PyValue.brep geo] with
  | Except.error _ => GridBrepOutcome.raisedTypeError
  | Except.ok true =>
      if mesh_grid_ok then GridBrepOutcome.gridded
      else GridBrepOutcome.skippedShadedModeWarning
  | Except.ok false => GridBrepOutcome.skippedNonPlanarWithWarning

/-- C8 (code bug): for every Brep grid object — planar or not — the
planarity check call in `import_grids` raises `TypeError` (missing the
required `tolerance` argument), which escapes the function; no Brep is ever
warned-and-skipped as non-planar and none proceeds to sampling. -/
theorem claim_c8_import_grids_brep_type_error (geo : Brep) (mesh_grid_ok : Bool) :
    import_grids_brep_step geo mesh_grid_ok = GridBrepOutcome.raisedTypeError ∧
    import_grids_brep_step geo mesh_grid_ok ≠
      GridBrepOutcome.skippedNonPlanarWithWarning ∧
    import_grids_brep_step geo mesh_grid_ok ≠ GridBrepOutcome.gridded :=
  by refine ⟨rfl, ?_, ?_⟩ <;> intro h <;> exact GridBrepOutcome.noConfusion h

/-! ## Joined polylines, Python dict and Python sort (togeometry.py lines
239-302)

`Polyline3D.join_segments(lines, tolerance)` returns a list whose elements
are joined `Polyline3D`s and leftover `LineSegment3D`s; the code inspects the
result only through `isinstance(..., Polyline3D)` and `.vertices`. -/

/-- One element of a `Polyline3D.join_segments` result. -/
inductive Joined
  | line (p1 p2 : Point3D)
  | polyline (verts : List Point3D)
deriving DecidableEq, Repr

instance : Inhabited Joined := ⟨Joined.line default default⟩

/-- `isinstance(x, Polyline3D)`. -/
def Joined.is_polyline : Joined → Bool
  | .polyline _ => true
  | .line _ _ => false

/-- `.vertices` (a `LineSegment3D` exposes its two end points; a closed
`Polyline3D` repeats its first vertex at the end). -/
def Joined.vertices : Joined → List Point3D
  | .line p1 p2 => [p1, p2]
  | .polyline verts => verts

/-- Insertion into a Python dict modelled as an association list in key
insertion order: a repeated key keeps its first position and takes the new
value. -/
def py_dict_insert (d : List (Joined × ℚ)) (kv : Joined × ℚ) :
    List (Joined × ℚ) :=
  if d.any (fun p => p.1 == kv.1) then
    d.map (fun p => if p.1 == kv.1 then (p.1, kv.2) else p)
  else d ++ [kv]

/-- `dict(zip(ks, vs)).items()`, in key insertion order. -/
def py_dict (pairs : List (Joined × ℚ)) : List (Joined × ℚ) :=
  pairs.foldl py_dict_insert []

/-- Stable insertion of a key-value pair into a value-descending list: the
pair passes every strictly larger value and stops in front of the first
value less than or equal to its own. -/
def insort_desc (x : Joined × ℚ) : List (Joined × ℚ) → List (Joined × ℚ)
  | [] => [x]
  | y :: ys => if x.2 < y.2 then y :: insort_desc x ys else x :: y :: ys

/-- `sorted(items, key=lambda x: x[1], reverse=True)`.  Python's sort is
stable, and a stable sort's output is uniquely determined by the input order
and the key comparisons; right-fold insertion with `insort_desc` is exactly
that stable value-descending sort. -/
def sorted_desc (items : List (Joined × ℚ)) : List (Joined × ℚ) :=
  items.foldr insort_desc []

theorem insort_desc_perm (x : Joined × ℚ) (l : List (Joined × ℚ)) :
    List.Perm (insort_desc x l) (x :: l) := by
  induction l with
  | nil => exact List.Perm.refl _
  | cons y ys ih =>
    unfold insort_desc
    by_cases h : x.2 < y.2
    · rw [if_pos h]
      exact (List.Perm.cons y ih).trans (List.Perm.swap x y ys)
    · rw [if_neg h]

theorem sorted_desc_perm (l : List (Joined × ℚ)) :
    List.Perm (sorted_desc l) l := by
  induction l with
  | nil => exact List.Perm.refl _
  | cons x xs ih =>
    exact (insort_desc_perm x (sorted_desc xs)).trans (List.Perm.cons x ih)

theorem insort_desc_pairwise (x : Joined × ℚ) (l : List (Joined × ℚ))
    (h : l.Pairwise (fun a b => b.2 ≤ a.2)) :
    (insort_desc x l).Pairwise (fun a b => b.2 ≤ a.2) := by
  induction l with
  | nil => simp [insort_desc]
  | cons y ys ih =>
    rw [List.pairwise_cons] at h
    unfold insort_desc
    by_cases hxy : x.2 < y.2
    · rw [if_pos hxy]
      rw [List.pairwise_cons]
      refine ⟨?_, ih h.2⟩
      intro a ha
      rcases List.mem_cons.mp ((insort_desc_perm x ys).mem_iff.mp ha) with rfl | hays
      · exact le_of_lt hxy
      · exact h.1 a hays
    · rw [if_neg hxy]
      rw [List.pairwise_cons]
      refine ⟨?_, List.pairwise_cons.mpr h⟩
      intro a ha
      rcases List.mem_cons.mp ha with rfl | hays
      · exact not_lt.mp hxy
      · exact le_trans (h.1 a hays) (not_lt.mp hxy)

theorem sorted_desc_pairwise (l : List (Joined × ℚ)) :
    (sorted_desc l).Pairwise (fun a b => b.2 ≤ a.2) := by
  induction l with
  | nil => simp [sorted_desc]
  | cons x xs ih => exact insort_desc_pairwise x (sorted_desc xs) ih

theorem py_dict_insert_of_not_mem (d : List (Joined × ℚ)) (kv : Joined × ℚ)
    (h : kv.1 ∉ d.map Prod.fst) : py_dict_insert d kv = d ++ [kv] := by
  unfold py_dict_insert
  rw [if_neg]
  intro hany
  rw [List.any_eq_true] at hany
  obtain ⟨p, hp, hpeq⟩ := hany
  exact h (List.mem_map.mpr ⟨p, hp, (beq_iff_eq.mp hpeq).symm ▸ rfl⟩)

/-- First-occurrence filtering with an accumulator of already-seen elements:
the key order of a Python dict built by repeated insertion. -/
def first_dedup_aux (seen : List Joined) : List Joined → List Joined
  | [] => []
  | x :: xs =>
    if x ∈ seen then first_dedup_aux seen xs
    else x :: first_dedup_aux (x :: seen) xs

/-- The keys of `dict(zip(l, ...))` in order: `l` with every later duplicate
of an earlier element removed. -/
def first_dedup (l : List Joined) : List Joined := first_dedup_aux [] l

theorem mem_first_dedup_aux (l : List Joined) (seen : List Joined)
    (x : Joined) : x ∈ first_dedup_aux seen l ↔ x ∈ l ∧ x ∉ seen := by
  induction l generalizing seen with
  | nil => simp [first_dedup_aux]
  | cons y ys ih =>
    unfold first_dedup_aux
    by_cases hy : y ∈ seen
    · rw [if_pos hy, ih, List.mem_cons]
      constructor
      · rintro ⟨hx, hxs⟩
        exact ⟨Or.inr hx, hxs⟩
      · rintro ⟨hx, hxs⟩
        rcases hx with rfl | hx'
        · exact absurd hy hxs
        · exact ⟨hx', hxs⟩
    · rw [if_neg hy, List.mem_cons, ih, List.mem_cons, List.mem_cons]
      constructor
      · rintro (rfl | ⟨hx, hxs⟩)
        · exact ⟨Or.inl rfl, hy⟩
        · exact ⟨Or.inr hx, fun hs => hxs (Or.inr hs)⟩
      · rintro ⟨hx, hxs⟩
        by_cases hxy : x = y
        · exact Or.inl hxy
        · rcases hx with rfl | hx'
          · exact Or.inl rfl
          · exact Or.inr ⟨hx', fun hs => hs.elim hxy hxs⟩

theorem mem_first_dedup (l : List Joined) (x : Joined) :
    x ∈ first_dedup l ↔ x ∈ l := by
  unfold first_dedup
  rw [mem_first_dedup_aux]
  simp

theorem first_dedup_aux_append (l : List Joined) (seen : List Joined)
    (p : Joined) :
    first_dedup_aux seen (l ++ [p]) =
      first_dedup_aux seen l ++ (if p ∈ seen ∨ p ∈ l then [] else [p]) := by
  induction l generalizing seen with
  | nil =>
    by_cases hp : p ∈ seen <;> simp [first_dedup_aux, hp]
  | cons x xs ih =>
    have hstep : (x :: xs) ++ [p] = x :: (xs ++ [p]) := rfl
    rw [hstep]
    unfold first_dedup_aux
    by_cases hx : x ∈ seen
    · rw [if_pos hx, if_pos hx, ih seen]
      have hcond : (p ∈ seen ∨ p ∈ xs) ↔ (p ∈ seen ∨ p ∈ x :: xs) := by
        rw [List.mem_cons]
        constructor
        · rintro (hs | hxs)
          · exact Or.inl hs
          · exact Or.inr (Or.inr hxs)
        · rintro (hs | rfl | hxs)
          · exact Or.inl hs
          · exact Or.inl hx
          · exact Or.inr hxs
      rw [if_congr hcond rfl rfl]
    · rw [if_neg hx, if_neg hx, ih (x :: seen)]
      have hcond : (p ∈ x :: seen ∨ p ∈ xs) ↔ (p ∈ seen ∨ p ∈ x :: xs) := by
        rw [List.mem_cons, List.mem_cons]
        constructor
        · rintro ((rfl | hs) | hxs)
          · exact Or.inr (Or.inl rfl)
          · exact Or.inl hs
          · exact Or.inr (Or.inr hxs)
        · rintro (hs | rfl | hxs)
          · exact Or.inl (Or.inr hs)
          · exact Or.inl (Or.inl rfl)
          · exact Or.inr hxs
      rw [if_congr hcond rfl rfl]
      rfl

theorem first_dedup_aux_eq_self (l : List Joined) (seen : List Joined)
    (hnd : l.Nodup) (hdisj : ∀ x ∈ l, x ∉ seen) :
    first_dedup_aux seen l = l := by
  induction l generalizing seen with
  | nil => rfl
  | cons x xs ih =>
    rw [List.nodup_cons] at hnd
    unfold first_dedup_aux
    rw [if_neg (hdisj x (List.mem_cons_self x xs))]
    congr 1
    refine ih (x :: seen) hnd.2 (fun y hy hmem => ?_)
    rcases List.mem_cons.mp hmem with rfl | h'
    · exact hnd.1 hy
    · exact hdisj y (List.mem_cons_of_mem x hy) h'

/-- Pairwise-distinct elements survive the first-occurrence filter
unchanged. -/
theorem first_dedup_eq_self (l : List Joined) (hnd : l.Nodup) :
    first_dedup l = l :=
  first_dedup_aux_eq_self l [] hnd (fun x _ h => (List.not_mem_nil x) h)

/-- Inserting `(p, f p)` into the dict of the already-seen prefix `s` leaves
it unchanged when the key is present (its value is already `f p`) and
appends the pair otherwise. -/
theorem py_dict_insert_map (f : Joined → ℚ) (s : List Joined) (p : Joined) :
    py_dict_insert ((first_dedup s).map fun q => (q, f q)) (p, f p) =
      (first_dedup (s ++ [p])).map fun q => (q, f q) := by
  have happ : first_dedup (s ++ [p]) =
      first_dedup s ++ (if p ∈ s then [] else [p]) := by
    unfold first_dedup
    rw [first_dedup_aux_append]
    have hcond : (p ∈ ([] : List Joined) ∨ p ∈ s) ↔ p ∈ s := by simp
    rw [if_congr hcond rfl rfl]
  by_cases hp : p ∈ s
  · have hpd : p ∈ first_dedup s := (mem_first_dedup s p).mpr hp
    have hany : (((first_dedup s).map fun q => (q, f q)).any
        (fun q => q.1 == (p, f p).1)) = true := by
      rw [List.any_eq_true]
      exact ⟨(p, f p), List.mem_map.mpr ⟨p, hpd, rfl⟩, by simp⟩
    unfold py_dict_insert
    rw [if_pos hany, happ, if_pos hp, List.append_nil]
    have hid : ∀ q ∈ (first_dedup s).map (fun q => (q, f q)),
        (if q.1 == (p, f p).1 then (q.1, (p, f p).2) else q) = q := by
      intro q hq
      obtain ⟨r, _, rfl⟩ := List.mem_map.mp hq
      by_cases hr : r = p
      · subst hr
        simp
      · rw [if_neg (by simpa using hr)]
    rw [List.map_congr_left hid]
    simp
  · have hpd : p ∉ first_dedup s := fun h => hp ((mem_first_dedup s p).mp h)
    have hk : (p, f p).1 ∉ ((first_dedup s).map fun q => (q, f q)).map
        Prod.fst := by
      rw [List.map_map]
      have hcomp : (Prod.fst ∘ fun q : Joined => (q, f q)) = id := rfl
      rw [hcomp, List.map_id]
      exact hpd
    rw [py_dict_insert_of_not_mem _ _ hk, happ, if_neg hp, List.map_append]
    rfl

theorem py_dict_foldl_map (f : Joined → ℚ) (rest : List Joined) :
    ∀ s : List Joined,
      List.foldl py_dict_insert ((first_dedup s).map fun q => (q, f q))
        (rest.map fun q => (q, f q)) =
      (first_dedup (s ++ rest)).map fun q => (q, f q) := by
  induction rest with
  | nil =>
    intro s
    simp
  | cons p rest' ih =>
    intro s
    rw [List.map_cons, List.foldl_cons, py_dict_insert_map f s p,
      ih (s ++ [p]), List.append_assoc]
    rfl

/-- `dict(zip(l, map f l)).items()`: the first occurrence of each key, in
order, each with its value. -/
theorem py_dict_map (f : Joined → ℚ) (l : List Joined) :
    py_dict (l.map fun q => (q, f q)) =
      (first_dedup l).map fun q => (q, f q) := by
  unfold py_dict
  have h := py_dict_foldl_map f l []
  simpa using h

/-- Zipping a list with its own image under `f`. -/
theorem zip_self_map {α β : Type} (l : List α) (f : α → β) :
    l.zip (l.map f) = l.map fun a => (a, f a) := by
  induction l with
  | nil => rfl
  | cons a as ih => simp [ih]

/-! ## `brep_to_face3d` (togeometry.py lines 198-302) -/

/-- togeometry.py lines 268-278: `polyline_areas` is computed only over the
`Polyline3D` elements, zipped against *all* elements into
`dict(zip(polylines, polyline_areas))` (so a stray `LineSegment3D` shifts the
pairing and drops the final pairs), and the items are sorted by decreasing
area. -/
def sorted_items (polylines : List Joined) (area : List Point3D → ℚ) :
    List (Joined × ℚ) :=
  let polyline_areas :=
    (polylines.filter Joined.is_polyline).map fun polyline => area polyline.vertices
  sorted_desc (py_dict (polylines.zip polyline_areas))

/-- togeometry.py line 278: `sorted_polylines`. -/
def sorted_polylines (polylines : List Joined) (area : List Point3D → ℚ) :
    List Joined :=
  (sorted_items polylines area).map Prod.fst

/-- togeometry.py lines 283-284: `boundary_pts`, the deduplicated vertices of
`sorted_polylines[0]`. -/
def boundary_pts (polylines : List Joined) (area : List Point3D → ℚ)
    (tolerance : ℕ) : List Point3D :=
  remove_dup_vertices ((sorted_polylines polylines area).headD default).vertices
    tolerance

/-- togeometry.py lines 286-287: `hole_pts`, the deduplicated vertex lists of
`sorted_polylines[1:]`. -/
def hole_pts (polylines : List Joined) (area : List Point3D → ℚ)
    (tolerance : ℕ) : List (List Point3D) :=
  ((sorted_polylines polylines area).drop 1).map fun polyline =>
    remove_dup_vertices polyline.vertices tolerance

/-- togeometry.py lines 289-292: `hole_pts_on_boundary`, the flattened hole
vertices that occur in `boundary_pts` — Python's `in`, i.e. exact `==`
equality on points, not a tolerance test. -/
def hole_pts_on_boundary (polylines : List Joined) (area : List Point3D → ℚ)
    (tolerance : ℕ) : List Point3D :=
  ((hole_pts polylines area tolerance).flatten).filter fun pts =>
    decide (pts ∈ boundary_pts polylines area tolerance)

/-- The result of `brep_to_face3d`, with the two meshing fallbacks and the
raised exceptions kept distinct.  `assertError` is the `AssertionError`
raised by the external `Face3D` constructor, which validates that the
boundary and every hole keep at least 3 vertices. -/
inductive BrepResult
  | attrError
  | valueError
  | assertError
  | meshedSingle
  | meshedMany
  | single (boundary : List Point3D)
  | withHoles (boundary : List Point3D) (holes : List (List Point3D))
  | nothing
deriving DecidableEq, Repr

/-- togeometry.py lines 256-302, the `len(polylines) > 1` branch: fall back
to `brep_to_mesh_to_face3d` when the *last* joined element is not a
`Polyline3D`, or when any deduplicated hole vertex is exactly equal to a
boundary vertex; otherwise `return [Face3D(boundary=boundary_pts,
holes=hole_pts)]` (line 302).  The external `Face3D` constructor validates
its loops — it asserts at least 3 vertices for the boundary and then for
each hole — so a loop whose tolerance-deduplication leaves fewer than 3
points makes the program raise `AssertionError` instead of returning. -/
def multi_loop (polylines : List Joined) (area : List Point3D → ℚ)
    (tolerance : ℕ) : BrepResult :=
  if (polylines.getLastD default).is_polyline = false then BrepResult.meshedMany
  else if 0 < (hole_pts_on_boundary polylines area tolerance).length then
    BrepResult.meshedMany
  else if (boundary_pts polylines area tolerance).length < 3 then
    BrepResult.assertError
  else if (hole_pts polylines area tolerance).any (fun hole => hole.length < 3) then
    BrepResult.assertError
  else
    BrepResult.withHoles (boundary_pts polylines area tolerance)
      (hole_pts polylines area tolerance)

/-- `togeometry.brep_to_face3d(brep, tolerance)` for a single-face planar
Brep.  The external `Polyline3D.join_segments` is the parameter `join` and
the external `Face3D(...).area` is the parameter `area`.  `meshedSingle`
stands for `[brep_to_meshed_face3d(brep, tolerance)]` and `meshedMany` for
`brep_to_mesh_to_face3d(brep)`. -/
def brep_to_face3d (brep : Brep)
    (join : List (Point3D × Point3D) → List Joined)
    (area : List Point3D → ℚ) (tolerance : ℕ) : BrepResult :=
  match brep.meshVertexCount with
  | none => BrepResult.attrError
  | some nverts =>
    if brep.edges.any (fun e => ! e.isLinear) then BrepResult.meshedSingle
    else if nverts = 4 ∨ nverts = 3 then BrepResult.meshedSingle
    else
      let lines := brep.edges.map fun e => (e.pointAtStart, e.pointAtEnd)
      let polylines := join lines
      if polylines.length = 1 then
        let bpts := remove_dup_vertices ((polylines.headD default).vertices)
          tolerance
        if bpts.length < 3 then BrepResult.valueError
        else BrepResult.single bpts
      else if 1 < polylines.length then multi_loop polylines area tolerance
      else BrepResult.nothing

/-- For a non-curved, non-small brep whose edges join to more than one
element, `brep_to_face3d` is the multi-loop branch. -/
theorem brep_to_face3d_multi (brep : Brep)
    (join : List (Point3D × Point3D) → List Joined)
    (area : List Point3D → ℚ) (tolerance : ℕ) (nverts : ℕ)
    (polylines : List Joined)
    (hmesh : brep.meshVertexCount = some nverts)
    (hnv : ¬ (nverts = 4 ∨ nverts = 3))
    (hlin : ∀ e ∈ brep.edges, e.isLinear = true)
    (hjoin : join (brep.edges.map fun e => (e.pointAtStart, e.pointAtEnd)) =
      polylines)
    (hlen : 1 < polylines.length) :
    brep_to_face3d brep join area tolerance = multi_loop polylines area tolerance := by
  have hcurved : brep.edges.any (fun e => ! e.isLinear) = false := by
    rw [List.any_eq_false]
    intro e he
    rw [hlin e he]
    simp
  unfold brep_to_face3d
  rw [hmesh]
  simp only [hcurved, Bool.false_eq_true, if_false, if_neg hnv, hjoin,
    if_neg (by omega : ¬ polylines.length = 1), if_pos hlen]

/-- The last element of a non-empty list is a member. -/
theorem getLastD_mem {α : Type} [Inhabited α] (l : List α) (h : l ≠ []) :
    l.getLastD default ∈ l := by
  rw [List.getLastD_eq_getLast?, List.getLast?_eq_getLast l h]
  exact List.getLast_mem h

/-- C7 (amended): for a single-face planar Brep with linear edges whose
joined segments leave more than one element, `brep_to_face3d` abandons
analytic reconstruction and returns the meshed fallback
(`brep_to_mesh_to_face3d`) exactly when the *last* element of the joined
result is not a `Polyline3D` — a leftover two-point line chain in final
position.  An open chain at any other position (or an open chain joined into
a multi-vertex `Polyline3D`) does not trigger this check; at such inputs the
code crashes with an `AssertionError` from the `Face3D` constructor instead
of falling back (see the counterexample). -/
theorem claim_c7_open_chain_last_position (brep : Brep)
    (join : List (Point3D × Point3D) → List Joined)
    (area : List Point3D → ℚ) (tolerance : ℕ) (nverts : ℕ)
    (polylines : List Joined)
    (hmesh : brep.meshVertexCount = some nverts)
    (hnv : ¬ (nverts = 4 ∨ nverts = 3))
    (hlin : ∀ e ∈ brep.edges, e.isLinear = true)
    (hjoin : join (brep.edges.map fun e => (e.pointAtStart, e.pointAtEnd)) =
      polylines)
    (hlen : 1 < polylines.length)
    (hlast : (polylines.getLastD default).is_polyline = false) :
    brep_to_face3d brep join area tolerance = BrepResult.meshedMany := by
  rw [brep_to_face3d_multi brep join area tolerance nverts polylines hmesh hnv
    hlin hjoin hlen]
  unfold multi_loop
  rw [if_pos hlast]

/-- C1 (amended): in the multi-loop branch, when some deduplicated hole
vertex is *exactly equal* to a deduplicated boundary vertex (Python's `in`
membership test, which uses `==` on points rather than the tolerance),
`brep_to_face3d` warns and falls back to `brep_to_mesh_to_face3d`, and in
particular never returns a `Face3D` carrying that hole.  A hole vertex that
is merely within tolerance of a boundary vertex does not trigger the
fallback (see the counterexample). -/
theorem claim_c1_exact_hole_touch_falls_back (brep : Brep)
    (join : List (Point3D × Point3D) → List Joined)
    (area : List Point3D → ℚ) (tolerance : ℕ) (nverts : ℕ)
    (polylines : List Joined)
    (hmesh : brep.meshVertexCount = some nverts)
    (hnv : ¬ (nverts = 4 ∨ nverts = 3))
    (hlin : ∀ e ∈ brep.edges, e.isLinear = true)
    (hjoin : join (brep.edges.map fun e => (e.pointAtStart, e.pointAtEnd)) =
      polylines)
    (hlen : 1 < polylines.length)
    (hlast : (polylines.getLastD default).is_polyline = true)
    (htouch : ∃ p ∈ (hole_pts polylines area tolerance).flatten,
      p ∈ boundary_pts polylines area tolerance) :
    brep_to_face3d brep join area tolerance = BrepResult.meshedMany ∧
    ∀ b hs, brep_to_face3d brep join area tolerance ≠
      BrepResult.withHoles b hs := by
  have hmain : brep_to_face3d brep join area tolerance = BrepResult.meshedMany := by
    rw [brep_to_face3d_multi brep join area tolerance nverts polylines hmesh hnv
      hlin hjoin hlen]
    unfold multi_loop
    rw [if_neg (by rw [hlast]; simp)]
    obtain ⟨p, hp, hpb⟩ := htouch
    have hmem : p ∈ hole_pts_on_boundary polylines area tolerance := by
      unfold hole_pts_on_boundary
      rw [List.mem_filter]
      exact ⟨hp, by simpa using hpb⟩
    rw [if_pos (List.length_pos.mpr (List.ne_nil_of_mem hmem))]
  refine ⟨hmain, fun b hs h => ?_⟩
  rw [hmain] at h
  exact BrepResult.noConfusion h

/-- C6 (amended): for a single-face planar Brep with linear edges whose
joined segments form more than one closed `Polyline3D`, provided no
deduplicated hole vertex is exactly equal to a boundary vertex and every
loop keeps at least 3 vertices after tolerance-deduplication,
`brep_to_face3d` emits a single `Face3D` whose boundary is the deduplicated
loop of greatest enclosed area — no other loop ever becomes the boundary —
and whose holes are exactly the deduplicated remaining loops.  The
`dict(zip(polylines, polyline_areas))` on line 270 keys the loops, so
`rest` ranges over the remaining *first occurrences* (`first_dedup`); for
pairwise-distinct loops — as joining a brep's distinct edges always
produces — that is every other loop, and the penultimate conjunct says so
directly.  (When a hole touches the boundary exactly, the meshed fallback
is returned instead; when a deduplicated loop drops below 3 vertices, the
`Face3D` constructor raises `AssertionError`; in neither case does any loop
become a boundary.) -/
theorem claim_c6_largest_area_loop_is_boundary (brep : Brep)
    (join : List (Point3D × Point3D) → List Joined)
    (area : List Point3D → ℚ) (tolerance : ℕ) (nverts : ℕ)
    (polylines : List Joined)
    (hmesh : brep.meshVertexCount = some nverts)
    (hnv : ¬ (nverts = 4 ∨ nverts = 3))
    (hlin : ∀ e ∈ brep.edges, e.isLinear = true)
    (hjoin : join (brep.edges.map fun e => (e.pointAtStart, e.pointAtEnd)) =
      polylines)
    (hlen : 1 < polylines.length)
    (hpoly : ∀ j ∈ polylines, j.is_polyline = true)
    (hbig : ∀ j ∈ polylines,
      3 ≤ (remove_dup_vertices j.vertices tolerance).length)
    (hnotouch : hole_pts_on_boundary polylines area tolerance = []) :
    ∃ b rest, sorted_polylines polylines area = b :: rest ∧
      b ∈ polylines ∧
      (∀ p ∈ polylines, area p.vertices ≤ area b.vertices) ∧
      List.Perm rest ((first_dedup polylines).erase b) ∧
      (polylines.Nodup → List.Perm rest (polylines.erase b)) ∧
      brep_to_face3d brep join area tolerance =
        BrepResult.withHoles (remove_dup_vertices b.vertices tolerance)
          (rest.map fun polyline =>
            remove_dup_vertices polyline.vertices tolerance) := by
  have hne : polylines ≠ [] := List.length_pos.mp (by omega)
  have hfilter : polylines.filter Joined.is_polyline = polylines :=
    List.filter_eq_self.mpr hpoly
  have hkeys : ((first_dedup polylines).map fun p => (p, area p.vertices)).map
      Prod.fst = first_dedup polylines := by
    have hcomp : (Prod.fst ∘ fun p : Joined => (p, area p.vertices)) = id := rfl
    rw [List.map_map, hcomp, List.map_id]
  have hsi : sorted_items polylines area =
      sorted_desc ((first_dedup polylines).map fun p => (p, area p.vertices)) := by
    unfold sorted_items
    dsimp only
    rw [hfilter, zip_self_map, py_dict_map]
  have hperm : List.Perm (sorted_items polylines area)
      ((first_dedup polylines).map fun p => (p, area p.vertices)) := by
    rw [hsi]
    exact sorted_desc_perm _
  have hsine : sorted_items polylines area ≠ [] := by
    obtain ⟨x, hx⟩ := List.exists_mem_of_ne_nil polylines hne
    have hxd : x ∈ first_dedup polylines := (mem_first_dedup polylines x).mpr hx
    exact List.ne_nil_of_mem
      (hperm.mem_iff.mpr (List.mem_map.mpr ⟨x, hxd, rfl⟩))
  obtain ⟨hd, tl, hcons⟩ := List.exists_cons_of_ne_nil hsine
  have hdmem : hd ∈ (first_dedup polylines).map fun p => (p, area p.vertices) :=
    hperm.mem_iff.mp (by rw [hcons]; exact List.mem_cons_self hd tl)
  obtain ⟨b0, hb0mem, hb0eq⟩ := List.mem_map.mp hdmem
  have hd2 : hd.2 = area hd.1.vertices := by rw [← hb0eq]
  have hbmem : hd.1 ∈ polylines := by
    rw [← hb0eq]
    exact (mem_first_dedup polylines b0).mp hb0mem
  have hpw : List.Pairwise (fun a b => b.2 ≤ a.2) (hd :: tl) := by
    rw [← hcons, hsi]
    exact sorted_desc_pairwise _
  rw [List.pairwise_cons] at hpw
  have hmax : ∀ p ∈ polylines, area p.vertices ≤ area hd.1.vertices := by
    intro p hp
    have hmempair : (p, area p.vertices) ∈ sorted_items polylines area :=
      hperm.mem_iff.mpr
        (List.mem_map.mpr ⟨p, (mem_first_dedup polylines p).mpr hp, rfl⟩)
    rw [hcons] at hmempair
    rcases List.mem_cons.mp hmempair with heq | htl
    · rw [← hd2, ← heq]
    · rw [← hd2]
      exact hpw.1 _ htl
  have hsp : sorted_polylines polylines area = hd.1 :: tl.map Prod.fst := by
    unfold sorted_polylines
    rw [hcons]
    rfl
  have hspperm : List.Perm (hd.1 :: tl.map Prod.fst) (first_dedup polylines) := by
    rw [← hsp]
    unfold sorted_polylines
    have hmapped := hperm.map Prod.fst
    rw [hkeys] at hmapped
    exact hmapped
  have herase := List.cons_perm_iff_perm_erase.mp hspperm
  have hrestmem : ∀ p ∈ tl.map Prod.fst, p ∈ polylines := by
    intro p hp
    exact (mem_first_dedup polylines p).mp
      (List.mem_of_mem_erase (herase.2.mem_iff.mp hp))
  refine ⟨hd.1, tl.map Prod.fst, hsp, hbmem, hmax, herase.2, ?_, ?_⟩
  · intro hnd
    have := herase.2
    rw [first_dedup_eq_self polylines hnd] at this
    exact this
  · rw [brep_to_face3d_multi brep join area tolerance nverts polylines hmesh hnv
      hlin hjoin hlen]
    unfold multi_loop
    rw [if_neg (by rw [hpoly _ (getLastD_mem polylines hne)]; simp)]
    rw [if_neg (by rw [hnotouch]; simp)]
    have hbp : boundary_pts polylines area tolerance =
        remove_dup_vertices hd.1.vertices tolerance := by
      unfold boundary_pts
      rw [hsp]
      rfl
    have hhp : hole_pts polylines area tolerance =
        (tl.map Prod.fst).map fun polyline =>
          remove_dup_vertices polyline.vertices tolerance := by
      unfold hole_pts
      rw [hsp]
      rfl
    rw [if_neg (by
      rw [hbp]
      exact Nat.not_lt.mpr (hbig hd.1 hbmem))]
    rw [if_neg (by
      rw [hhp]
      intro hany
      rw [List.any_eq_true] at hany
      obtain ⟨hole, hhole, hshort⟩ := hany
      obtain ⟨p, hpmem, rfl⟩ := List.mem_map.mp hhole
      have := hbig p (hrestmem p hpmem)
      rw [decide_eq_true_eq] at hshort
      omega)]
    rw [hbp, hhp]

/-! ## Concrete flat geometry for the brep claims -/

/-- The shoelace sum over consecutive vertex pairs of a flat `z = 0` loop
given with its closing vertex repeated (twice the signed enclosed area). -/
def shoelace_twice : List Point3D → ℤ
  | p :: q :: rest => (p.x * q.y - q.x * p.y) + shoelace_twice (q :: rest)
  | _ => 0

/-- Concrete stand-in for the external `Face3D(...).area` on the flat loops
below: the absolute shoelace sum.  It is twice the enclosed area; the factor
does not affect any comparison the code performs. -/
def area_xy (verts : List Point3D) : ℚ := ((shoelace_twice verts).natAbs : ℚ)

/-- A 1000 × 1000 outer square loop, closing vertex repeated. -/
def outerLoop : List Point3D :=
  [⟨0, 0, 0⟩, ⟨1000, 0, 0⟩, ⟨1000, 1000, 0⟩, ⟨0, 1000, 0⟩, ⟨0, 0, 0⟩]

/-- An inner triangular hole whose first vertex `(1, 1, 0)` is within
tolerance 2 of the outer square's corner `(0, 0, 0)` but not equal to it. -/
def holeNear : List Point3D :=
  [⟨1, 1, 0⟩, ⟨400, 100, 0⟩, ⟨100, 400, 0⟩, ⟨1, 1, 0⟩]

/-- An inner triangular hole sharing the vertex `(0, 0, 0)` exactly with the
outer square. -/
def holeTouch : List Point3D :=
  [⟨0, 0, 0⟩, ⟨400, 100, 0⟩, ⟨100, 400, 0⟩, ⟨0, 0, 0⟩]

/-- The linear brep edges tracing a loop's consecutive segments. -/
def edgesOfLoop : List Point3D → List BrepEdge
  | p :: q :: rest => ⟨true, p, q⟩ :: edgesOfLoop (q :: rest)
  | _ => []

/-- A dangling segment away from the square, as a pair of end points. -/
def dangling : Point3D × Point3D := (⟨5000, 5000, 0⟩, ⟨6000, 5000, 0⟩)

/-- Square with a near-touching (within tolerance, not equal) hole. -/
def brepNear : Brep :=
  { meshVertexCount := some 7,
    edges := edgesOfLoop outerLoop ++ edgesOfLoop holeNear,
    surfaces := [⟨fun _ => true⟩] }

/-- `join_segments` output for `brepNear`: two closed polylines. -/
def joinNear : List (Point3D × Point3D) → List Joined :=
  fun _ => [Joined.polyline outerLoop, Joined.polyline holeNear]

/-- Square with a hole touching the boundary at an exactly shared vertex. -/
def brepTouch : Brep :=
  { meshVertexCount := some 7,
    edges := edgesOfLoop outerLoop ++ edgesOfLoop holeTouch,
    surfaces := [⟨fun _ => true⟩] }

/-- `join_segments` output for `brepTouch`: two closed polylines. -/
def joinTouch : List (Point3D × Point3D) → List Joined :=
  fun _ => [Joined.polyline outerLoop, Joined.polyline holeTouch]

/-- Square plus hole plus a dangling segment listed first. -/
def brepDanglingFirst : Brep :=
  { meshVertexCount := some 7,
    edges := ⟨true, dangling.1, dangling.2⟩ ::
      (edgesOfLoop outerLoop ++ edgesOfLoop holeNear),
    surfaces := [⟨fun _ => true⟩] }

/-- `join_segments` output for `brepDanglingFirst`: the leftover line chain
sits at the *front* of the joined list, not at the end. -/
def joinDanglingFirst : List (Point3D × Point3D) → List Joined :=
  fun _ => [Joined.line dangling.1 dangling.2, Joined.polyline outerLoop,
    Joined.polyline holeNear]

/-- Square plus a dangling segment listed last. -/
def brepDanglingLast : Brep :=
  { meshVertexCount := some 7,
    edges := edgesOfLoop outerLoop ++ [⟨true, dangling.1, dangling.2⟩],
    surfaces := [⟨fun _ => true⟩] }

/-- `join_segments` output for `brepDanglingLast`: the leftover line chain is
the last element. -/
def joinDanglingLast : List (Point3D × Point3D) → List Joined :=
  fun _ => [Joined.polyline outerLoop, Joined.line dangling.1 dangling.2]

/-- C1 counterexample: the hole's vertex `(1, 1, 0)` coincides with the
boundary vertex `(0, 0, 0)` within tolerance 2 without being equal to it,
and `brep_to_face3d` does *not* fall back to meshing: it returns the
analytic `Face3D` carrying that hole verbatim. -/
theorem claim_c1_counterexample :
    (is_equivalent ⟨1, 1, 0⟩ ⟨0, 0, 0⟩ 2 = true ∧
      (⟨1, 1, 0⟩ : Point3D) ≠ ⟨0, 0, 0⟩) ∧
    brep_to_face3d brepNear joinNear area_xy 2 =
      BrepResult.withHoles
        [⟨1000, 0, 0⟩, ⟨1000, 1000, 0⟩, ⟨0, 1000, 0⟩, ⟨0, 0, 0⟩]
        [[⟨400, 100, 0⟩, ⟨100, 400, 0⟩, ⟨1, 1, 0⟩]] ∧
    brep_to_face3d brepNear joinNear area_xy 2 ≠ BrepResult.meshedMany := by
  refine ⟨⟨by decide, by decide⟩, by decide, by decide⟩

/-- Witness for C1 (amended) at the exactly-touching hole. -/
theorem claim_c1_exact_hole_touch_falls_back_witness :
    (1 < (joinTouch (brepTouch.edges.map fun e =>
      (e.pointAtStart, e.pointAtEnd))).length) ∧
    brep_to_face3d brepTouch joinTouch area_xy 2 = BrepResult.meshedMany :=
  ⟨by decide,
   (claim_c1_exact_hole_touch_falls_back brepTouch joinTouch area_xy 2 7
     [Joined.polyline outerLoop, Joined.polyline holeTouch] rfl (by decide)
     (by decide) rfl (by decide) (by decide) (by decide)).1⟩

/-- C7 counterexample: the joined result contains an open line chain at the
*front* (with closed polylines after it, more than one element in total),
and `brep_to_face3d` does not fall back to meshing: the `polylines[-1]`
check passes, the shifted `zip` pairs the two-point chain with the square's
area and selects it as `sorted_polylines[0]`, and the program then raises
`AssertionError` from the `Face3D` constructor (a two-point boundary)
instead of returning the meshed reconstruction the claim requires. -/
theorem claim_c7_counterexample :
    ((joinDanglingFirst (brepDanglingFirst.edges.map fun e =>
        (e.pointAtStart, e.pointAtEnd))).length = 3 ∧
      (Joined.line dangling.1 dangling.2).is_polyline = false) ∧
    brep_to_face3d brepDanglingFirst joinDanglingFirst area_xy 2 =
      BrepResult.assertError ∧
    brep_to_face3d brepDanglingFirst joinDanglingFirst area_xy 2 ≠
      BrepResult.meshedMany := by
  refine ⟨⟨by decide, by decide⟩, by decide, by decide⟩

/-- Witness for C7 (amended) at a leftover line chain in final position. -/
theorem claim_c7_open_chain_last_position_witness :
    (1 < (joinDanglingLast (brepDanglingLast.edges.map fun e =>
      (e.pointAtStart, e.pointAtEnd))).length) ∧
    brep_to_face3d brepDanglingLast joinDanglingLast area_xy 2 =
      BrepResult.meshedMany :=
  ⟨by decide,
   claim_c7_open_chain_last_position brepDanglingLast joinDanglingLast area_xy
     2 7 [Joined.polyline outerLoop, Joined.line dangling.1 dangling.2] rfl
     (by decide) (by decide) rfl (by decide) (by decide)⟩

/-- C6 counterexample: a single-face planar Brep whose linear edges join into
two closed polylines (square and exactly-touching hole) for which
`brep_to_face3d` returns the meshed fallback — the largest loop does not
become the boundary of an emitted `Face3D` and the other loop is not
attached as a hole. -/
theorem claim_c6_counterexample :
    ((joinTouch (brepTouch.edges.map fun e =>
        (e.pointAtStart, e.pointAtEnd))).length = 2 ∧
      (Joined.polyline outerLoop).is_polyline = true ∧
      (Joined.polyline holeTouch).is_polyline = true) ∧
    brep_to_face3d brepTouch joinTouch area_xy 2 = BrepResult.meshedMany ∧
    brep_to_face3d brepTouch joinTouch area_xy 2 ≠
      BrepResult.withHoles
        (remove_dup_vertices outerLoop 2)
        [remove_dup_vertices holeTouch 2] := by
  refine ⟨⟨by decide, by decide, by decide⟩, by decide, by decide⟩

/-- Witness for C6 (amended) at the square with a strictly interior hole. -/
theorem claim_c6_largest_area_loop_is_boundary_witness :
    (1 < (joinNear (brepNear.edges.map fun e =>
      (e.pointAtStart, e.pointAtEnd))).length) ∧
    brep_to_face3d brepNear joinNear area_xy 2 =
      BrepResult.withHoles (remove_dup_vertices outerLoop 2)
        [remove_dup_vertices holeNear 2] := by
  refine ⟨by decide, ?_⟩
  obtain ⟨b, rest, hsort, hmem, hmax, hperm, hpermnd, hres⟩ :=
    claim_c6_largest_area_loop_is_boundary brepNear joinNear area_xy 2 7
      [Joined.polyline outerLoop, Joined.polyline holeNear] rfl (by decide)
      (by decide) rfl (by decide) (by decide) (by decide) (by decide)
  have hbrest : b :: rest = [Joined.polyline outerLoop, Joined.polyline holeNear] := by
    rw [← hsort]
    decide
  have hb : b = Joined.polyline outerLoop := by
    injection hbrest with h1 _
  have hrest : rest = [Joined.polyline holeNear] := by
    injection hbrest with _ h2
  rw [hres, hb, hrest]
  rfl

/-- A sliver loop whose vertices are pairwise within tolerance 2 of each
other (closing vertex repeated): tolerance-deduplication against the cyclic
predecessor removes every vertex. -/
def sliverLoop : List Point3D :=
  [⟨2000, 2000, 0⟩, ⟨2001, 2000, 0⟩, ⟨2000, 2001, 0⟩, ⟨2000, 2000, 0⟩]

/-- Square with a sub-tolerance sliver loop. -/
def brepSliver : Brep :=
  { meshVertexCount := some 7,
    edges := edgesOfLoop outerLoop ++ edgesOfLoop sliverLoop,
    surfaces := [⟨fun _ => true⟩] }

/-- `join_segments` output for `brepSliver`: two closed polylines. -/
def joinSliver : List (Point3D × Point3D) → List Joined :=
  fun _ => [Joined.polyline outerLoop, Joined.polyline sliverLoop]

/-- The `Face3D` constructor validation in action (supporting the C6 and C7
amendments): a hole loop that dedups below 3 vertices makes togeometry.py's
line 302 raise `AssertionError` rather than emit a `Face3D`. -/
theorem sliver_hole_asserts :
    remove_dup_vertices sliverLoop 2 = [] ∧
    brep_to_face3d brepSliver joinSliver area_xy 2 =
      BrepResult.assertError := by
  refine ⟨by decide, by decide⟩

end Honeybee3dm






